import Mathlib

/-!
Verification of computeSales.py: a program that joins a product price
catalogue with a list of sales records and produces a total plus
categorized diagnostics.  The Python functions build_price_map and
compute_total are embedded below as executable Lean definitions over a
model of parsed JSON values; file loading, stderr printing and report
formatting are outside the modelled core.  Python floats are modelled as
exact rationals extended with infinities and a NaN value; IEEE rounding
is not modelled (all arithmetic in the claims stays in the exact range).
-/

/-- Model of a Python float value: a finite rational, plus the three
non-finite values float can take (inf, -inf, nan).  Rounding to double
precision is not modelled; finite values are exact rationals. -/
inductive PyNum where
  | finite (q : ℚ)
  | inf
  | neginf
  | nan
  deriving DecidableEq, Repr

/-- Multiplication of Python floats (sign rules for infinities, nan
propagation, 0 * inf = nan).  Signed zero is not distinguished. -/
def PyNum.mul : PyNum → PyNum → PyNum
  | PyNum.nan, _ => PyNum.nan
  | _, PyNum.nan => PyNum.nan
  | PyNum.finite a, PyNum.finite b => PyNum.finite (a * b)
  | PyNum.finite a, PyNum.inf =>
      if 0 < a then PyNum.inf else if a < 0 then PyNum.neginf else PyNum.nan
  | PyNum.finite a, PyNum.neginf =>
      if 0 < a then PyNum.neginf else if a < 0 then PyNum.inf else PyNum.nan
  | PyNum.inf, PyNum.finite b =>
      if 0 < b then PyNum.inf else if b < 0 then PyNum.neginf else PyNum.nan
  | PyNum.neginf, PyNum.finite b =>
      if 0 < b then PyNum.neginf else if b < 0 then PyNum.inf else PyNum.nan
  | PyNum.inf, PyNum.inf => PyNum.inf
  | PyNum.inf, PyNum.neginf => PyNum.neginf
  | PyNum.neginf, PyNum.inf => PyNum.neginf
  | PyNum.neginf, PyNum.neginf => PyNum.inf

/-- Addition of Python floats (inf + (-inf) = nan, nan propagation). -/
def PyNum.add : PyNum → PyNum → PyNum
  | PyNum.nan, _ => PyNum.nan
  | _, PyNum.nan => PyNum.nan
  | PyNum.finite a, PyNum.finite b => PyNum.finite (a + b)
  | PyNum.finite _, PyNum.inf => PyNum.inf
  | PyNum.finite _, PyNum.neginf => PyNum.neginf
  | PyNum.inf, PyNum.finite _ => PyNum.inf
  | PyNum.neginf, PyNum.finite _ => PyNum.neginf
  | PyNum.inf, PyNum.inf => PyNum.inf
  | PyNum.neginf, PyNum.neginf => PyNum.neginf
  | PyNum.inf, PyNum.neginf => PyNum.nan
  | PyNum.neginf, PyNum.inf => PyNum.nan

/-- The Python comparison `x < 0` on a float: false for nan and inf,
true for -inf, the rational comparison on finite values. -/
def PyNum.ltZero : PyNum → Bool
  | PyNum.finite q => decide (q < 0)
  | PyNum.inf => false
  | PyNum.neginf => true
  | PyNum.nan => false

/-- Whether a Python float value is finite (math.isfinite). -/
def PyNum.isFinite : PyNum → Bool
  | PyNum.finite _ => true
  | _ => false

/-- Model of a value produced by Python json.loads: null (None), bool,
number (a float or int value; the literals Infinity, -Infinity and NaN
are accepted by json.loads, so non-finite numbers can occur), string,
array (list) and object (dict). -/
inductive Json where
  | null
  | bool (b : Bool)
  | num (x : PyNum)
  | str (s : String)
  | arr (items : List Json)
  | obj (fields : List (String × Json))

/-- Whether a JSON value is a list (Python isinstance(x, list)). -/
def Json.isList : Json → Bool
  | Json.arr _ => true
  | _ => false

/-- ASCII whitespace as stripped by Python str.strip().  Python also
strips further Unicode whitespace, which is not modelled. -/
def isPyWhitespace (c : Char) : Bool :=
  c == ' ' || c == '\t' || c == '\n' || c == '\x0d' || c == '\x0b' || c == '\x0c'

/-- Python str.strip() on the character list of a string: drop leading
and trailing whitespace. -/
def stripChars (cs : List Char) : List Char :=
  ((cs.dropWhile isPyWhitespace).reverse.dropWhile isPyWhitespace).reverse

/-- Python str.strip() as a string-valued function. -/
def pyStrip (s : String) : String :=
  String.mk (stripChars s.data)

/-- Leading decimal digits of a character list, and the rest. -/
def takeDigits : List Char → List Char × List Char
  | [] => ([], [])
  | c :: cs =>
    if c.isDigit then
      let r := takeDigits cs
      (c :: r.1, r.2)
    else ([], c :: cs)

/-- Value of a list of decimal digit characters. -/
def digitsToNat (ds : List Char) : ℕ :=
  ds.foldl (fun a c => 10 * a + (c.toNat - 48)) 0

/-- Consume an optional leading sign; returns whether it was minus. -/
def parseOptSign : List Char → Bool × List Char
  | '+' :: t => (false, t)
  | '-' :: t => (true, t)
  | t => (false, t)

/-- Unsigned decimal float syntax accepted by Python float():
digits [. digits] or . digits, with an optional exponent part.
Underscore digit separators are not modelled. -/
def parseMagnitude (cs : List Char) : Option ℚ :=
  let ipr := takeDigits cs
  let fr : List Char × List Char :=
    match ipr.2 with
    | '.' :: t => takeDigits t
    | _ => ([], ipr.2)
  if ipr.1.isEmpty && fr.1.isEmpty then none
  else
    let mant : ℚ := (digitsToNat ipr.1 : ℚ) + (digitsToNat fr.1 : ℚ) / ((10 : ℚ) ^ fr.1.length)
    match fr.2 with
    | [] => some mant
    | e :: t =>
      if e == 'e' || e == 'E' then
        let sg := parseOptSign t
        let er := takeDigits sg.2
        if er.1.isEmpty || !er.2.isEmpty then none
        else
          let ex : ℤ := if sg.1 then -(digitsToNat er.1 : ℤ) else (digitsToNat er.1 : ℤ)
          some (mant * (10 : ℚ) ^ ex)
      else none

/-- Python float(s) on a string: strip surrounding whitespace, optional
sign, then inf, infinity or nan (case-insensitive) or a decimal
magnitude.  Whitespace stripping is modelled over the ASCII whitespace
characters. -/
def parseFloat (s : String) : Option PyNum :=
  let sg := parseOptSign (stripChars s.data)
  let low := sg.2.map Char.toLower
  if low == "inf".toList || low == "infinity".toList then
    some (if sg.1 then PyNum.neginf else PyNum.inf)
  else if low == "nan".toList then
    some PyNum.nan
  else
    match parseMagnitude sg.2 with
    | some q => some (PyNum.finite (if sg.1 then -q else q))
    | none => none

/-- Python float(x) on a json.loads value: numbers pass through, bools
become 0 or 1, strings are parsed, everything else (None, list, dict)
raises TypeError, modelled as none.  ValueError on a bad string is also
none. -/
def pyFloat : Json → Option PyNum
  | Json.null => none
  | Json.bool b => some (PyNum.finite (if b then 1 else 0))
  | Json.num x => some x
  | Json.str s => parseFloat s
  | Json.arr _ => none
  | Json.obj _ => none

/-- Python dict.get(key) on a dict built by json.loads from an object:
duplicate keys in the JSON text keep the last occurrence, a missing key
yields None (Json.null). -/
def objGet (fields : List (String × Json)) (key : String) : Json :=
  match fields.reverse.find? (fun f => f.1 == key) with
  | some f => f.2
  | none => Json.null

/-- The price index: a Python dict from product title to price, modelled
as an association list with unique keys in insertion order. -/
abbrev Dict := List (String × PyNum)

/-- Python dict assignment d[k] = v: overwrite in place if the key is
present, append otherwise. -/
def Dict.insert : Dict → String → PyNum → Dict
  | [], k, v => [(k, v)]
  | (k0, v0) :: rest, k, v =>
    if k0 = k then (k, v) :: rest else (k0, v0) :: Dict.insert rest k v

/-- Python dict lookup d[k], none when absent. -/
def Dict.get? : Dict → String → Option PyNum
  | [], _ => none
  | (k0, v0) :: rest, k => if k0 = k then some v0 else Dict.get? rest k

/-- Python membership test k in d. -/
def Dict.contains (d : Dict) (k : String) : Bool :=
  (Dict.get? d k).isSome

/-- Validation of one catalogue item, in the order of the checks in
build_price_map (computeSales.py lines 40-70): the item must be an
object, its title field a string that is non-empty after stripping, its
price field convertible by float() to a value that is not < 0.  On
success it yields the (untrimmed) title and the converted price; any
failure yields none (the source also prints a diagnostic to stderr,
which is not part of the returned value). -/
def itemValid (item : Json) : Option (String × PyNum) :=
  match item with
  | Json.obj fields =>
    match objGet fields "title" with
    | Json.str title =>
      if (stripChars title.data).isEmpty then none
      else
        match pyFloat (objGet fields "price") with
        | none => none
        | some priceValue =>
          if PyNum.ltZero priceValue then none else some (title, priceValue)
    | _ => none
  | _ => none

/-- One iteration of the loop in build_price_map: a valid item is
inserted (prices[title] = price_value), an invalid one is skipped. -/
def catStep (prices : Dict) (item : Json) : Dict :=
  match itemValid item with
  | some tv => Dict.insert prices tv.1 tv.2
  | none => prices

/-- build_price_map (computeSales.py lines 32-74): if the catalogue is
not a list the empty mapping is returned (after a stderr diagnostic),
otherwise each item is validated and inserted in order. -/
def build_price_map (catalogue : Json) : Dict :=
  match catalogue with
  | Json.arr items => items.foldl catStep []
  | _ => []

/-- The price carried by the last valid item with the given title, in
input order; none when no valid item has that title. -/
def lastPrice (items : List Json) (t : String) : Option PyNum :=
  ((items.filterMap itemValid).reverse.find? (fun p => p.1 == t)).map (fun p => p.2)

/-- Error message of compute_total for a sales document that is not a
list (computeSales.py line 87). -/
def salesNotListMsg : String := "[ERROR] Sales JSON must be a list."

/-- Error message for a sales row that is not an object (line 92). -/
def rowNotObjMsg (idx : ℕ) : String :=
  "[ERROR] Sales row #" ++ toString idx ++ " is not an object. Skipping."

/-- Error message for a missing or invalid Product field (line 101). -/
def badProductMsg (idx : ℕ) : String :=
  "[ERROR] Sales row #" ++ toString idx ++ " missing/invalid Product. Skipping."

/-- Error message for a Quantity that float() rejects (line 109). -/
def badQuantityMsg (product : String) : String :=
  "[ERROR] Invalid Quantity for \x27" ++ product ++ "\x27. Skipping."

/-- Warning message for a product absent from the catalogue (line 115). -/
def notFoundMsg (product : String) : String :=
  "[WARN] Product not found in catalogue: \x27" ++ product ++ "\x27. Skipping."

/-- One iteration of the loop in compute_total (computeSales.py lines
90-120) on the state (total, warnings, errors): a row that is not an
object, has a missing/invalid/blank Product, or a Quantity that float()
rejects appends one error; a product absent from the price index
appends one warning; otherwise total += prices[product] * qty.  There
is no check on the sign of the quantity. -/
def salesStep (prices : Dict) (idx : ℕ) (st : PyNum × List String × List String)
    (row : Json) : PyNum × List String × List String :=
  match row with
  | Json.obj fields =>
    match objGet fields "Product" with
    | Json.str product =>
      if (stripChars product.data).isEmpty then
        (st.1, st.2.1, st.2.2 ++ [badProductMsg idx])
      else
        match pyFloat (objGet fields "Quantity") with
        | none => (st.1, st.2.1, st.2.2 ++ [badQuantityMsg product])
        | some qty =>
          match Dict.get? prices product with
          | none => (st.1, st.2.1 ++ [notFoundMsg product], st.2.2)
          | some price => (PyNum.add st.1 (PyNum.mul price qty), st.2.1, st.2.2)
    | _ => (st.1, st.2.1, st.2.2 ++ [badProductMsg idx])
  | _ => (st.1, st.2.1, st.2.2 ++ [rowNotObjMsg idx])

/-- The enumerated row loop of compute_total, carrying the row index. -/
def computeTotalRows (prices : Dict) : ℕ → (PyNum × List String × List String) →
    List Json → PyNum × List String × List String
  | _, st, [] => st
  | idx, st, row :: rest => computeTotalRows prices (idx + 1) (salesStep prices idx st row) rest

/-- compute_total (computeSales.py lines 77-122): returns the triple
(total, warnings, errors).  A sales document that is not a list yields
a zero total, no warnings and that single schema error; otherwise the
rows are folded in input order starting from total = 0.0. -/
def compute_total (prices : Dict) (sales : Json) : PyNum × List String × List String :=
  match sales with
  | Json.arr rows => computeTotalRows prices 0 (PyNum.finite 0, [], []) rows
  | _ => (PyNum.finite 0, [], [salesNotListMsg])

/-- The body of salesStep with the price index threaded through the
state, so that what the loop does to the dict is itself part of the
returned value: every branch of the source reads prices but never
assigns into it, so every branch returns the dict it received. -/
def salesStepD (idx : ℕ) (st : Dict × PyNum × List String × List String)
    (row : Json) : Dict × PyNum × List String × List String :=
  match row with
  | Json.obj fields =>
    match objGet fields "Product" with
    | Json.str product =>
      if (stripChars product.data).isEmpty then
        (st.1, st.2.1, st.2.2.1, st.2.2.2 ++ [badProductMsg idx])
      else
        match pyFloat (objGet fields "Quantity") with
        | none => (st.1, st.2.1, st.2.2.1, st.2.2.2 ++ [badQuantityMsg product])
        | some qty =>
          match Dict.get? st.1 product with
          | none => (st.1, st.2.1, st.2.2.1 ++ [notFoundMsg product], st.2.2.2)
          | some price => (st.1, PyNum.add st.2.1 (PyNum.mul price qty), st.2.2.1, st.2.2.2)
    | _ => (st.1, st.2.1, st.2.2.1, st.2.2.2 ++ [badProductMsg idx])
  | _ => (st.1, st.2.1, st.2.2.1, st.2.2.2 ++ [rowNotObjMsg idx])

/-- The row loop of compute_total with the price index threaded. -/
def computeTotalRowsD : ℕ → (Dict × PyNum × List String × List String) →
    List Json → Dict × PyNum × List String × List String
  | _, st, [] => st
  | idx, st, row :: rest => computeTotalRowsD (idx + 1) (salesStepD idx st row) rest

/-- compute_total with the price index threaded through the whole call,
returning the dict as it stands after the call next to the usual
(total, warnings, errors) triple. -/
def compute_totalD (prices : Dict) (sales : Json) :
    Dict × PyNum × List String × List String :=
  match sales with
  | Json.arr rows => computeTotalRowsD 0 (prices, PyNum.finite 0, [], []) rows
  | _ => (prices, PyNum.finite 0, [], [salesNotListMsg])

/-- The pure core of main (computeSales.py lines 169-211) after both
documents have been parsed successfully: build the price index, compute
the total, report it, return exit status 0.  The usage exit (2), the
load-failure exit (1) and the report-write-failure exit (1) depend on
the host command line and filesystem and are outside this core; given
two parsed documents the function always reaches `return 0`. -/
def runMain (catalogue sales : Json) : (PyNum × List String × List String) × ℤ :=
  (compute_total (build_price_map catalogue) sales, 0)

/-- Looking a key up after a dict assignment: the assigned key yields
the new value, any other key is unaffected. -/
theorem Dict.get?_insert (d : Dict) (k q : String) (v : PyNum) :
    Dict.get? (Dict.insert d k v) q = if k = q then some v else Dict.get? d q := by
  induction d with
  | nil => simp [Dict.insert, Dict.get?]
  | cons h0 rest ih =>
    obtain ⟨k0, v0⟩ := h0
    by_cases hk : k0 = k
    · subst hk
      simp only [Dict.insert, if_pos rfl, Dict.get?]
      by_cases hq : k0 = q
      · simp [hq]
      · simp [hq, Dict.get?]
    · simp only [Dict.insert, if_neg hk, Dict.get?]
      by_cases hq : k0 = q
      · subst hq
        have : ¬ k = k0 := fun h => hk h.symm
        simp [this]
      · simp [hq, ih]

/-- An entry of a dict after an assignment is the assigned pair or an
entry that was already present. -/
theorem Dict.mem_insert (d : Dict) (k : String) (v : PyNum)
    (e : String × PyNum) (he : e ∈ Dict.insert d k v) : e = (k, v) ∨ e ∈ d := by
  induction d with
  | nil =>
    simp [Dict.insert] at he
    exact Or.inl he
  | cons h0 rest ih =>
    obtain ⟨k0, v0⟩ := h0
    by_cases hk : k0 = k
    · subst hk
      simp only [Dict.insert, if_pos rfl] at he
      rcases List.mem_cons.mp he with h | h
      · exact Or.inl h
      · exact Or.inr (List.mem_cons_of_mem _ h)
    · simp only [Dict.insert, if_neg hk] at he
      rcases List.mem_cons.mp he with h | h
      · exact Or.inr (h ▸ List.mem_cons_self _ _)
      · rcases ih h with h1 | h1
        · exact Or.inl h1
        · exact Or.inr (List.mem_cons_of_mem _ h1)

/-- A price accepted by the validation of build_price_map passed the
price_value < 0 test. -/
theorem itemValid_not_neg (item : Json) (tv : String × PyNum)
    (h : itemValid item = some tv) : PyNum.ltZero tv.2 = false := by
  cases item with
  | obj fields =>
    simp only [itemValid] at h
    cases hpp : objGet fields "title" with
    | str title =>
      rw [hpp] at h
      by_cases hb : (stripChars title.data).isEmpty
      · simp [hb] at h
      · simp only [hb, if_false, Bool.false_eq_true] at h
        cases hq : pyFloat (objGet fields "price") with
        | none => rw [hq] at h; simp at h
        | some pv =>
          rw [hq] at h
          by_cases hng : PyNum.ltZero pv
          · simp [hng] at h
          · simp only [hng, if_false, Bool.false_eq_true, Option.some.injEq] at h
            subst h
            simpa using hng
    | null => rw [hpp] at h; simp at h
    | bool b => rw [hpp] at h; simp at h
    | num x => rw [hpp] at h; simp at h
    | arr l => rw [hpp] at h; simp at h
    | obj l => rw [hpp] at h; simp at h
  | null => simp [itemValid] at h
  | bool b => simp [itemValid] at h
  | num x => simp [itemValid] at h
  | str s => simp [itemValid] at h
  | arr l => simp [itemValid] at h

/-- Folding catStep over the items: looking up a title afterwards finds
the price of the last valid item carrying that title, falling back to
the initial dict when no valid item has it. -/
theorem foldl_catStep_get? (items : List Json) (d : Dict) (t : String) :
    Dict.get? (List.foldl catStep d items) t =
      match lastPrice items t with
      | some v => some v
      | none => Dict.get? d t := by
  induction items generalizing d with
  | nil => simp [lastPrice]
  | cons i rest ih =>
    simp only [List.foldl_cons]
    rw [ih (catStep d i)]
    cases hv : itemValid i with
    | none =>
      have hl : lastPrice (i :: rest) t = lastPrice rest t := by
        simp [lastPrice, List.filterMap_cons, hv]
      rw [hl]
      cases lastPrice rest t with
      | none => simp [catStep, hv]
      | some w => rfl
    | some tv =>
      obtain ⟨t0, v0⟩ := tv
      have hstep : catStep d i = Dict.insert d t0 v0 := by simp [catStep, hv]
      have hl : lastPrice (i :: rest) t =
          match lastPrice rest t with
          | some w => some w
          | none => if t0 = t then some v0 else none := by
        simp only [lastPrice, List.filterMap_cons, hv, List.reverse_cons, List.find?_append]
        cases hf : List.find? (fun p => p.1 == t) (List.filterMap itemValid rest).reverse with
        | none =>
          simp only [hf, Option.none_or]
          by_cases ht : t0 = t
          · simp [List.find?, ht]
          · have : (t0 == t) = false := by simp [ht]
            simp [List.find?, this, ht]
        | some w => simp [hf]
      rw [hl]
      cases lastPrice rest t with
      | some w => rfl
      | none =>
        simp only [hstep, Dict.get?_insert]
        by_cases ht : t0 = t
        · simp [ht]
        · simp [ht]

/-- Lookup in the finished price index is exactly lastPrice. -/
theorem build_price_map_get? (items : List Json) (t : String) :
    Dict.get? (build_price_map (Json.arr items)) t = lastPrice items t := by
  have h := foldl_catStep_get? items [] t
  simp only [build_price_map]
  rw [h]
  cases lastPrice items t with
  | none => rfl
  | some v => rfl

/-- A list mapping to exactly the some values of another list filters
back to that list. -/
theorem filterMap_of_map_eq_map_some (items : List Json) (pairs : List (String × PyNum))
    (hv : items.map itemValid = pairs.map some) :
    items.filterMap itemValid = pairs := by
  induction items generalizing pairs with
  | nil =>
    cases pairs with
    | nil => rfl
    | cons p ps => simp at hv
  | cons i rest ih =>
    cases pairs with
    | nil => simp at hv
    | cons p ps =>
      simp only [List.map_cons, List.cons.injEq] at hv
      simp [List.filterMap_cons, hv.1, ih ps hv.2]

/-- With pairwise-distinct keys, a key determines its value in a pair
list. -/
theorem keyUnique (pairs : List (String × PyNum)) (hnd : (pairs.map Prod.fst).Nodup)
    (t : String) (v w : PyNum) (h1 : (t, v) ∈ pairs) (h2 : (t, w) ∈ pairs) : v = w := by
  induction pairs with
  | nil => simp at h1
  | cons p ps ih =>
    simp only [List.map_cons, List.nodup_cons] at hnd
    rcases List.mem_cons.mp h1 with hh1 | hh1 <;> rcases List.mem_cons.mp h2 with hh2 | hh2
    · rw [← hh1] at hh2
      exact (congrArg Prod.snd hh2).symm
    · exfalso
      apply hnd.1
      rw [← hh1]
      exact List.mem_map.mpr ⟨(t, w), hh2, rfl⟩
    · exfalso
      apply hnd.1
      rw [← hh2]
      exact List.mem_map.mpr ⟨(t, v), hh1, rfl⟩
    · exact ih hnd.2 hh1 hh2

/-- A well-formed row whose product is not a key of the price index:
the loop body appends exactly the not-found warning and leaves total
and errors alone. -/
theorem salesStep_warn (prices : Dict) (idx : ℕ) (st : PyNum × List String × List String)
    (fields : List (String × Json)) (p : String) (q : PyNum)
    (hp : objGet fields "Product" = Json.str p)
    (hblank : (stripChars p.data).isEmpty = false)
    (hq : pyFloat (objGet fields "Quantity") = some q)
    (habs : Dict.get? prices p = none) :
    salesStep prices idx st (Json.obj fields) = (st.1, st.2.1 ++ [notFoundMsg p], st.2.2) := by
  simp [salesStep, hp, hblank, hq, habs]

/-- A well-formed row whose product is a key of the price index: the
loop body adds price * quantity to the total and appends nothing, with
no condition on the sign of the quantity. -/
theorem salesStep_add (prices : Dict) (idx : ℕ) (st : PyNum × List String × List String)
    (fields : List (String × Json)) (p : String) (q pr : PyNum)
    (hp : objGet fields "Product" = Json.str p)
    (hblank : (stripChars p.data).isEmpty = false)
    (hq : pyFloat (objGet fields "Quantity") = some q)
    (hpr : Dict.get? prices p = some pr) :
    salesStep prices idx st (Json.obj fields) =
      (PyNum.add st.1 (PyNum.mul pr q), st.2.1, st.2.2) := by
  simp [salesStep, hp, hblank, hq, hpr]

/-- With an empty price index the loop body never changes the total. -/
theorem salesStep_fst_nil (idx : ℕ) (st : PyNum × List String × List String) (row : Json) :
    (salesStep [] idx st row).1 = st.1 := by
  cases row with
  | obj fields =>
    simp only [salesStep]
    cases objGet fields "Product" with
    | str product =>
      by_cases hb : (stripChars product.data).isEmpty
      · simp [hb]
      · simp only [hb, Bool.false_eq_true, if_false]
        cases pyFloat (objGet fields "Quantity") with
        | none => rfl
        | some q => simp [Dict.get?]
    | null => rfl
    | bool b => rfl
    | num x => rfl
    | arr l => rfl
    | obj l => rfl
  | null => rfl
  | bool b => rfl
  | num x => rfl
  | str s => rfl
  | arr l => rfl

/-- With an empty price index the whole row loop never changes the
total. -/
theorem computeTotalRows_fst_nil (rows : List Json) (idx : ℕ)
    (st : PyNum × List String × List String) :
    (computeTotalRows [] idx st rows).1 = st.1 := by
  induction rows generalizing idx st with
  | nil => rfl
  | cons row rest ih =>
    simp only [computeTotalRows]
    rw [ih (idx + 1) (salesStep [] idx st row), salesStep_fst_nil]

/-- The loop body with the price index threaded: it returns the dict it
received in every branch, next to the usual step result. -/
theorem salesStepD_eq (idx : ℕ) (p : Dict) (t : PyNum) (w e : List String) (row : Json) :
    salesStepD idx (p, t, w, e) row = (p, salesStep p idx (t, w, e) row) := by
  cases row with
  | obj fields =>
    simp only [salesStepD, salesStep]
    cases objGet fields "Product" with
    | str product =>
      by_cases hb : (stripChars product.data).isEmpty
      · simp [hb]
      · simp only [hb, Bool.false_eq_true, if_false]
        cases pyFloat (objGet fields "Quantity") with
        | none => rfl
        | some q =>
          cases Dict.get? p product with
          | none => rfl
          | some pr => rfl
    | null => rfl
    | bool b => rfl
    | num x => rfl
    | arr l => rfl
    | obj l => rfl
  | null => rfl
  | bool b => rfl
  | num x => rfl
  | str s => rfl
  | arr l => rfl

/-- The row loop with the price index threaded: the dict comes out as
it went in and the triple is the one computed by the plain loop. -/
theorem computeTotalRowsD_eq (rows : List Json) (idx : ℕ) (p : Dict) (t : PyNum)
    (w e : List String) :
    computeTotalRowsD idx (p, t, w, e) rows = (p, computeTotalRows p idx (t, w, e) rows) := by
  induction rows generalizing idx t w e with
  | nil => rfl
  | cons row rest ih =>
    simp only [computeTotalRowsD, computeTotalRows]
    rw [salesStepD_eq]
    rcases hs : salesStep p idx (t, w, e) row with ⟨t1, w1, e1⟩
    exact ih (idx + 1) t1 w1 e1

/-- compute_total with the price index threaded equals the pair of the
untouched index and the plain compute_total result. -/
theorem compute_totalD_eq (prices : Dict) (sales : Json) :
    compute_totalD prices sales = (prices, compute_total prices sales) := by
  cases sales with
  | arr rows => exact computeTotalRowsD_eq rows 0 prices (PyNum.finite 0) [] []
  | null => rfl
  | bool b => rfl
  | num x => rfl
  | str s => rfl
  | obj fields => rfl

/-- Every entry produced by folding catStep from a dict of validated
entries again satisfies the non-negativity test of the validation. -/
theorem foldl_catStep_inv (items : List Json) (d : Dict)
    (hd : ∀ e ∈ d, PyNum.ltZero e.2 = false) :
    ∀ e ∈ List.foldl catStep d items, PyNum.ltZero e.2 = false := by
  induction items generalizing d with
  | nil => exact hd
  | cons i rest ih =>
    simp only [List.foldl_cons]
    apply ih
    intro e he
    cases hv : itemValid i with
    | none =>
      rw [catStep, hv] at he
      exact hd e he
    | some tv =>
      rw [catStep, hv] at he
      rcases Dict.mem_insert d tv.1 tv.2 e he with h | h
      · rw [h]
        exact itemValid_not_neg i tv hv
      · exact hd e h

/-- C1: the claim says a sales row with a negative quantity is rejected
with exactly one error and contributes 0 to the total.  compute_total
has no negative-quantity check: on the catalogue price Pen -> 1.5 and
the single row Product Pen, Quantity -1, it returns total -1.5 with no
error and no warning, so the row contributed a negative amount and no
error was appended. -/
theorem C1_counterexample :
    compute_total [("Pen", PyNum.finite (3 / 2))]
        (Json.arr [Json.obj [("Product", Json.str "Pen"),
          ("Quantity", Json.num (PyNum.finite (-1)))]]) =
      (PyNum.finite (-(3 / 2)), [], []) ∧
    PyNum.finite (-(3 / 2)) ≠ PyNum.finite 0 := by
  constructor
  · with_unfolding_all rfl
  · intro h
    rw [PyNum.finite.injEq] at h
    norm_num at h

/-- C1 (amended): for every sales row whose Product is a valid string
naming a key of the price index and whose Quantity converts to a
negative number, no error is appended and the row contributes
price * quantity (a negative amount) to the running total: negative
quantities are included, not rejected. -/
theorem C1_amended (prices : Dict) (idx : ℕ) (st : PyNum × List String × List String)
    (fields : List (String × Json)) (p : String) (q pr : PyNum)
    (hp : objGet fields "Product" = Json.str p)
    (hblank : (stripChars p.data).isEmpty = false)
    (hq : pyFloat (objGet fields "Quantity") = some q)
    (hneg : PyNum.ltZero q = true)
    (hpr : Dict.get? prices p = some pr) :
    salesStep prices idx st (Json.obj fields) =
      (PyNum.add st.1 (PyNum.mul pr q), st.2.1, st.2.2) :=
  salesStep_add prices idx st fields p q pr hp hblank hq hpr

/-- C1 amended theorem applied to the row Product Pen, Quantity -1
against the index Pen -> 1.5. -/
theorem C1_witness :
    salesStep [("Pen", PyNum.finite (3 / 2))] 0 (PyNum.finite 0, [], [])
        (Json.obj [("Product", Json.str "Pen"),
          ("Quantity", Json.num (PyNum.finite (-1)))]) =
      (PyNum.add (PyNum.finite 0)
        (PyNum.mul (PyNum.finite (3 / 2)) (PyNum.finite (-1))), [], []) :=
  C1_amended [("Pen", PyNum.finite (3 / 2))] 0 (PyNum.finite 0, [], []) _ "Pen"
    (PyNum.finite (-1)) (PyNum.finite (3 / 2)) (by with_unfolding_all rfl)
    (by with_unfolding_all rfl) (by with_unfolding_all rfl)
    (by with_unfolding_all rfl) (by with_unfolding_all rfl)

/-- C2: the claim says a non-list top-level document makes the program
exit with a non-zero status and produce no total.  With the catalogue
document an object and the sales document a list, the modelled main
returns exit status 0 and a reported total of 0: the run completes. -/
theorem C2_counterexample :
    (runMain (Json.obj []) (Json.arr [])).2 = 0 ∧
    (runMain (Json.obj []) (Json.arr [])).1 = (PyNum.finite 0, [], []) :=
  ⟨rfl, by with_unfolding_all rfl⟩

/-- C2 (amended): if the top-level value of either document is not a
list, the run does not stop: the offending document yields an empty
index (catalogue) or the single schema error (sales), main still
reports a total, that total is 0, and the exit status is 0. -/
theorem C2_amended (catalogue sales : Json)
    (h : Json.isList catalogue = false ∨ Json.isList sales = false) :
    (runMain catalogue sales).2 = 0 ∧ (runMain catalogue sales).1.1 = PyNum.finite 0 := by
  refine ⟨rfl, ?_⟩
  rcases h with h | h
  · have hemp : build_price_map catalogue = [] := by
      cases catalogue <;> first | rfl | simp [Json.isList] at h
    simp only [runMain, hemp]
    cases sales with
    | arr rows => exact computeTotalRows_fst_nil rows 0 (PyNum.finite 0, [], [])
    | null => rfl
    | bool b => rfl
    | num x => rfl
    | str s => rfl
    | obj fields => rfl
  · simp only [runMain]
    cases sales <;> first | rfl | simp [Json.isList] at h

/-- C2 amended theorem applied to a non-list catalogue and a one-row
sales list. -/
theorem C2_witness :
    (runMain (Json.obj []) (Json.arr [Json.obj [("Product", Json.str "Pen"),
        ("Quantity", Json.num (PyNum.finite 2))]])).2 = 0 ∧
    (runMain (Json.obj []) (Json.arr [Json.obj [("Product", Json.str "Pen"),
        ("Quantity", Json.num (PyNum.finite 2))]])).1.1 = PyNum.finite 0 :=
  C2_amended _ _ (Or.inl rfl)

/-- C3: the claim says every value of the price index is finite.  The
catalogue item title A, price Infinity (a value json.loads accepts) is
inserted: float() succeeds on it and inf < 0 is false, so the index
maps A to a non-finite value. -/
theorem C3_counterexample :
    build_price_map (Json.arr [Json.obj [("title", Json.str "A"),
        ("price", Json.num PyNum.inf)]]) = [("A", PyNum.inf)] ∧
    PyNum.isFinite PyNum.inf = false :=
  ⟨by with_unfolding_all rfl, rfl⟩

/-- C3 (amended): every value stored in the price index passed the
code's sign test (it is not < 0, so every finite value is >= 0), and an
item whose price is not convertible by float(), or converts to a value
that is < 0, is never inserted; non-finite values (inf, nan) that
convert successfully may however appear as values. -/
theorem C3_amended :
    (∀ (catalogue : Json), ∀ e ∈ build_price_map catalogue, PyNum.ltZero e.2 = false) ∧
    (∀ (prices : Dict) (fields : List (String × Json)),
      (pyFloat (objGet fields "price") = none ∨
        ∃ v, pyFloat (objGet fields "price") = some v ∧ PyNum.ltZero v = true) →
      catStep prices (Json.obj fields) = prices) := by
  constructor
  · intro catalogue e he
    cases catalogue with
    | arr items =>
      simp only [build_price_map] at he
      exact foldl_catStep_inv items [] (by intro e h; simp at h) e he
    | null => simp [build_price_map] at he
    | bool b => simp [build_price_map] at he
    | num x => simp [build_price_map] at he
    | str s => simp [build_price_map] at he
    | obj fields => simp [build_price_map] at he
  · intro prices fields hbad
    simp only [catStep, itemValid]
    cases objGet fields "title" with
    | str title =>
      by_cases hb : (stripChars title.data).isEmpty
      · simp [hb]
      · rcases hbad with hnone | ⟨v, hv, hneg⟩
        · simp [hb, hnone]
        · simp [hb, hv, hneg]
    | null => rfl
    | bool b => rfl
    | num x => rfl
    | arr l => rfl
    | obj l => rfl

/-- C3 amended theorem applied to a concrete entry of a one-item index
and to an item whose price does not convert. -/
theorem C3_witness :
    PyNum.ltZero (PyNum.finite 2) = false ∧
    catStep [] (Json.obj [("title", Json.str "A"), ("price", Json.str "x")]) = [] :=
  ⟨C3_amended.1 (Json.arr [Json.obj [("title", Json.str "A"),
      ("price", Json.num (PyNum.finite 2))]]) ("A", PyNum.finite 2)
      (by with_unfolding_all exact List.Mem.head _),
   C3_amended.2 [] _ (Or.inl (by with_unfolding_all rfl))⟩

/-- C4: for a catalogue list whose items all validate (object, title a
non-blank string, price convertible and non-negative) and whose
validated titles are pairwise distinct, the finished index holds
exactly the validated (title, price) pairs: lookup succeeds with v
precisely on the listed pairs. -/
theorem C4_valid_unique_catalogue (items : List Json) (pairs : List (String × PyNum))
    (hv : items.map itemValid = pairs.map some)
    (hnd : (pairs.map Prod.fst).Nodup) (t : String) (v : PyNum) :
    Dict.get? (build_price_map (Json.arr items)) t = some v ↔ (t, v) ∈ pairs := by
  rw [build_price_map_get?]
  have hfm : items.filterMap itemValid = pairs := filterMap_of_map_eq_map_some items pairs hv
  simp only [lastPrice, hfm]
  constructor
  · intro h
    rcases Option.map_eq_some'.mp h with ⟨pr, hfind, hsnd⟩
    obtain ⟨a, b⟩ := pr
    have hp := List.find?_some hfind
    simp only [beq_iff_eq] at hp
    subst hp
    simp only at hsnd
    subst hsnd
    exact List.mem_reverse.mp (List.mem_of_find?_eq_some hfind)
  · intro h
    have hsome : (List.find? (fun p => p.1 == t) pairs.reverse).isSome := by
      rw [List.find?_isSome]
      exact ⟨(t, v), List.mem_reverse.mpr h, by simp⟩
    rcases Option.isSome_iff_exists.mp hsome with ⟨pr, hfind⟩
    obtain ⟨a, b⟩ := pr
    have hp := List.find?_some hfind
    simp only [beq_iff_eq] at hp
    subst hp
    have hmem := List.mem_reverse.mp (List.mem_of_find?_eq_some hfind)
    have hbv : b = v := keyUnique pairs hnd a b v hmem h
    subst hbv
    simp [hfind]

/-- C4 theorem applied to a two-item catalogue with distinct titles. -/
theorem C4_witness :
    Dict.get? (build_price_map (Json.arr
        [Json.obj [("title", Json.str "A"), ("price", Json.num (PyNum.finite 1))],
         Json.obj [("title", Json.str "B"), ("price", Json.num (PyNum.finite 2))]])) "A" =
      some (PyNum.finite 1) :=
  (C4_valid_unique_catalogue _ [("A", PyNum.finite 1), ("B", PyNum.finite 2)]
      (by with_unfolding_all rfl) (by simp) "A" (PyNum.finite 1)).mpr
    (List.mem_cons_self _ _)

/-- C5: lookup in the finished index always yields the price of the
last valid item carrying that title (last-write-wins), and on the
catalogue [title A price 1, title A price 2] the index is A -> 2. -/
theorem C5_duplicate_titles_last_wins :
    (∀ (items : List Json) (t : String),
        Dict.get? (build_price_map (Json.arr items)) t = lastPrice items t) ∧
    build_price_map (Json.arr
        [Json.obj [("title", Json.str "A"), ("price", Json.num (PyNum.finite 1))],
         Json.obj [("title", Json.str "A"), ("price", Json.num (PyNum.finite 2))]]) =
      [("A", PyNum.finite 2)] :=
  ⟨build_price_map_get?, by with_unfolding_all rfl⟩

/-- C6: on a sales document that is not a list, compute_total returns a
zero total, no warnings and exactly the single schema error, without
looking at any row. -/
theorem C6_sales_not_list (prices : Dict) (sales : Json)
    (h : Json.isList sales = false) :
    compute_total prices sales = (PyNum.finite 0, [], [salesNotListMsg]) := by
  cases sales <;> first | rfl | simp [Json.isList] at h

/-- C6 theorem applied to an object-valued sales document. -/
theorem C6_witness :
    compute_total [("Pen", PyNum.finite 1)] (Json.obj []) =
      (PyNum.finite 0, [], [salesNotListMsg]) :=
  C6_sales_not_list _ _ rfl

/-- C7: a well-formed row (valid Product string, valid non-negative
numeric Quantity) whose product is not a key of the price index
contributes 0 to the total and produces exactly one warning and no
error. -/
theorem C7_unmatched_product (prices : Dict) (idx : ℕ)
    (st : PyNum × List String × List String) (fields : List (String × Json))
    (p : String) (q : PyNum)
    (hp : objGet fields "Product" = Json.str p)
    (hblank : (stripChars p.data).isEmpty = false)
    (hq : pyFloat (objGet fields "Quantity") = some q)
    (hq0 : PyNum.ltZero q = false)
    (habs : Dict.get? prices p = none) :
    salesStep prices idx st (Json.obj fields) =
      (st.1, st.2.1 ++ [notFoundMsg p], st.2.2) :=
  salesStep_warn prices idx st fields p q hp hblank hq habs

/-- C7 theorem applied to the row Product Book, Quantity 2 against the
index Pen -> 1.5. -/
theorem C7_witness :
    salesStep [("Pen", PyNum.finite (3 / 2))] 0 (PyNum.finite 0, [], [])
        (Json.obj [("Product", Json.str "Book"),
          ("Quantity", Json.num (PyNum.finite 2))]) =
      (PyNum.finite 0, [] ++ [notFoundMsg "Book"], []) :=
  C7_unmatched_product [("Pen", PyNum.finite (3 / 2))] 0 (PyNum.finite 0, [], []) _
    "Book" (PyNum.finite 2) (by with_unfolding_all rfl) (by with_unfolding_all rfl)
    (by with_unfolding_all rfl) (by with_unfolding_all rfl) (by with_unfolding_all rfl)

/-- C8: aggregate is deterministic.  Running compute_total a second
time, on the price index exactly as the first run left it, yields the
identical full result (index, total, warnings and errors): each
invocation is a pure function of its two inputs. -/
theorem C8_deterministic (prices : Dict) (sales : Json) :
    compute_totalD ((compute_totalD prices sales).1) sales =
      compute_totalD prices sales := by
  simp [compute_totalD_eq]

/-- C9: compute_total never inserts, removes or modifies an entry of
the price index: with the index threaded through every row step, it
comes out equal to the index passed in, and the triple computed along
the way is exactly the compute_total result. -/
theorem C9_price_index_unchanged (prices : Dict) (sales : Json) :
    (compute_totalD prices sales).1 = prices ∧
    (compute_totalD prices sales).2 = compute_total prices sales := by
  rw [compute_totalD_eq]
  exact ⟨rfl, rfl⟩

/-- C10: product matching is exact and whitespace-sensitive.  A valid
catalogue item is stored under its untrimmed title (stripping is only
the blankness test), and a well-formed sales row whose untrimmed
Product is not a key produces the not-found warning and contributes
nothing, even when some stored title differs from it only by
surrounding whitespace. -/
theorem C10_whitespace_exact_match :
    (∀ (prices : Dict) (fields : List (String × Json)) (t : String) (v : PyNum),
      objGet fields "title" = Json.str t →
      (stripChars t.data).isEmpty = false →
      pyFloat (objGet fields "price") = some v →
      PyNum.ltZero v = false →
      catStep prices (Json.obj fields) = Dict.insert prices t v) ∧
    (∀ (prices : Dict) (idx : ℕ) (st : PyNum × List String × List String)
        (fields : List (String × Json)) (p : String) (q : PyNum),
      objGet fields "Product" = Json.str p →
      (stripChars p.data).isEmpty = false →
      pyFloat (objGet fields "Quantity") = some q →
      Dict.get? prices p = none →
      (∃ t0 v0, (t0, v0) ∈ prices ∧ stripChars t0.data = stripChars p.data ∧ t0 ≠ p) →
      salesStep prices idx st (Json.obj fields) =
        (st.1, st.2.1 ++ [notFoundMsg p], st.2.2)) := by
  constructor
  · intro prices fields t v ht hb hv hneg
    simp [catStep, itemValid, ht, hb, hv, hneg]
  · intro prices idx st fields p q hp hb hq habs hws
    exact salesStep_warn prices idx st fields p q hp hb hq habs

/-- C10 theorem applied to the title " A" (stored untrimmed) and to the
product "A" looked up against the index holding only " A". -/
theorem C10_witness :
    catStep [] (Json.obj [("title", Json.str " A"),
        ("price", Json.num (PyNum.finite 1))]) =
      Dict.insert [] " A" (PyNum.finite 1) ∧
    salesStep [(" A", PyNum.finite 1)] 0 (PyNum.finite 0, [], [])
        (Json.obj [("Product", Json.str "A"),
          ("Quantity", Json.num (PyNum.finite 2))]) =
      (PyNum.finite 0, [] ++ [notFoundMsg "A"], []) :=
  ⟨C10_whitespace_exact_match.1 [] _ " A" (PyNum.finite 1) (by with_unfolding_all rfl)
      (by with_unfolding_all rfl) (by with_unfolding_all rfl) (by with_unfolding_all rfl),
   C10_whitespace_exact_match.2 [(" A", PyNum.finite 1)] 0 (PyNum.finite 0, [], []) _ "A"
      (PyNum.finite 2) (by with_unfolding_all rfl) (by with_unfolding_all rfl)
      (by with_unfolding_all rfl) (by with_unfolding_all rfl)
      ⟨" A", PyNum.finite 1, List.mem_cons_self _ _, by with_unfolding_all rfl, by decide⟩⟩
